import Mathlib

/-!
Verification of the shape-arithmetic core of `src/models.py`.

The embedding models Python integers as `Int`.  Python's
`math.floor(width / stride)` is floor division, embedded as `Int.fdiv`;
a zero stride raises `ZeroDivisionError` in Python, embedded as `none`.
A Python function that may raise is embedded as returning `Option Int`.
-/

namespace Models

/-- One iteration of the `for kernel_size, stride in zip(kernel_sizes, strides)`
loop body of `compute_conv_output_width`:
`width = width + (2 * padding) - (dilation * (kernel_size - 1)) - 1` followed by
`width = math.floor((width / stride) + 1)`.  Since
`floor(x + 1) = floor(x) + 1`, the second line is `Int.fdiv width stride + 1`;
`stride = 0` raises `ZeroDivisionError` (`none`). -/
def convLoop (padding dilation : Int) : Int → List (Int × Int) → Option Int
  | width, [] => some width
  | width, (kernel_size, stride) :: rest =>
    if stride = 0 then none
    else
      convLoop padding dilation
        (Int.fdiv (width + 2 * padding - dilation * (kernel_size - 1) - 1) stride + 1) rest

/-- `compute_conv_output_width` from `src/models.py`: starts from `input_width`
and runs the loop body over `zip(kernel_sizes, strides)`. -/
def compute_conv_output_width (input_width : Int) (kernel_sizes strides : List Int)
    (padding dilation : Int) : Option Int :=
  convLoop padding dilation input_width (kernel_sizes.zip strides)

/-- `compute_conv_output_size` from `src/models.py`:
`n_output_channels * (width ** 2)` where `width` is the result of
`compute_conv_output_width` (an exception there propagates). -/
def compute_conv_output_size (input_width : Int) (kernel_sizes strides : List Int)
    (n_output_channels padding dilation : Int) : Option Int :=
  match compute_conv_output_width input_width kernel_sizes strides padding dilation with
  | none => none
  | some width => some (n_output_channels * width ^ 2)

/-- The Shape Calculator formula as the spec words it: for each
`(kernel_size, stride)` pair in order (walking the two equal-length sequences
together), update `width := width + 2*padding - dilation*(kernel_size - 1) - 1`
and then `width := floor(width / stride) + 1`; the final value is the result.
Defined from the spec's words, for comparison with the source definition. -/
def specConvWidth (padding dilation : Int) : Int → List Int → List Int → Option Int
  | width, [], [] => some width
  | width, kernel_size :: ks, stride :: ss =>
    if stride = 0 then none
    else
      specConvWidth padding dilation
        (Int.fdiv (width + 2 * padding - dilation * (kernel_size - 1) - 1) stride + 1) ks ss
  | _, _, _ => none

/-- The `fc1_size` computation of `ConvNet.__init__` in `src/models.py`:
if `len(input_shape) == 2` then `_, image_width = input_shape`, else
`n_input_channels, _, image_width = input_shape` (a tuple unpacking that
raises `ValueError` unless the shape has exactly 3 entries, embedded as
`none`); then `compute_conv_output_size(image_width, 2*(5,2), 2*(1,2), 64)`,
where `2 * (5, 2) = (5, 2, 5, 2)` and `2 * (1, 2) = (1, 2, 1, 2)`. -/
def convNetFc1Size (input_shape : List Int) : Option Int :=
  if input_shape.length = 2 then
    match input_shape with
    | [_, image_width] => compute_conv_output_size image_width [5, 2, 5, 2] [1, 2, 1, 2] 64 0 1
    | _ => none
  else
    match input_shape with
    | [_, _, image_width] => compute_conv_output_size image_width [5, 2, 5, 2] [1, 2, 1, 2] 64 0 1
    | _ => none

/-- The loop only sees `kernel_sizes.zip strides`, and zipping truncates both
lists to the length of the shorter one. -/
lemma zip_take_min {α β : Type} (l₁ : List α) (l₂ : List β) :
    l₁.zip l₂ =
      (l₁.take (min l₁.length l₂.length)).zip (l₂.take (min l₁.length l₂.length)) := by
  induction l₁ generalizing l₂ with
  | nil => simp
  | cons a t ih =>
    cases l₂ with
    | nil => simp
    | cons b t₂ =>
      simp only [List.zip_cons_cons, List.length_cons]
      rw [Nat.succ_min_succ, List.take_succ_cons, List.take_succ_cons,
        List.zip_cons_cons, ih t₂]

/-- The loop runs to completion (a `some` result) whenever no stride it
consumes is zero: there is no further failure path in the body. -/
lemma convLoop_isSome_of_nonzero (padding dilation : Int) :
    ∀ (pairs : List (Int × Int)) (w : Int), (∀ p ∈ pairs, p.2 ≠ 0) →
      (convLoop padding dilation w pairs).isSome := by
  intro pairs
  induction pairs with
  | nil => intro w _; rfl
  | cons p t ih =>
    intro w h
    obtain ⟨k, s⟩ := p
    have hs : s ≠ 0 := h (k, s) (List.mem_cons_self _ _)
    unfold convLoop
    rw [if_neg hs]
    exact ih _ (fun q hq => h q (List.mem_cons_of_mem _ hq))

/-- The loop is monotone in the incoming width when every stride is positive:
each body step is an affine shift followed by floor division by the stride. -/
lemma convLoop_mono (padding dilation : Int) (pairs : List (Int × Int))
    (hpos : ∀ p ∈ pairs, 0 < p.2) :
    ∀ w w' : Int, w ≤ w' → ∀ x y, convLoop padding dilation w pairs = some x →
      convLoop padding dilation w' pairs = some y → x ≤ y := by
  induction pairs with
  | nil =>
    intro w w' hww x y hx hy
    simp only [convLoop, Option.some.injEq] at hx hy
    omega
  | cons p t ih =>
    intro w w' hww x y hx hy
    obtain ⟨k, s⟩ := p
    have hs : 0 < s := hpos (k, s) (List.mem_cons_self _ _)
    have hs0 : s ≠ 0 := by omega
    unfold convLoop at hx hy
    rw [if_neg hs0] at hx hy
    refine ih (fun q hq => hpos q (List.mem_cons_of_mem _ hq)) _ _ ?_ x y hx hy
    have h1 : w + 2 * padding - dilation * (k - 1) - 1 ≤
        w' + 2 * padding - dilation * (k - 1) - 1 := by omega
    have h2 := Int.ediv_le_ediv hs h1
    rw [← Int.fdiv_eq_ediv _ (le_of_lt hs), ← Int.fdiv_eq_ediv _ (le_of_lt hs)] at h2
    omega

/-- Claim C1: for equal-length kernel and stride sequences,
`compute_conv_output_width` returns exactly the value described by the spec's
per-pair update formula (`width := width + 2*padding - dilation*(kernel_size
- 1) - 1; width := floor(width / stride) + 1`, folded over the pairs in
order, starting from `input_width`). -/
theorem width_matches_spec_formula (input_width padding dilation : Int)
    (kernel_sizes strides : List Int) (h : kernel_sizes.length = strides.length) :
    compute_conv_output_width input_width kernel_sizes strides padding dilation =
      specConvWidth padding dilation input_width kernel_sizes strides := by
  induction kernel_sizes generalizing input_width strides with
  | nil =>
    cases strides with
    | nil => rfl
    | cons s ss => simp at h
  | cons k ks ih =>
    cases strides with
    | nil => simp at h
    | cons s ss =>
      have h' : ks.length = ss.length := by simpa using h
      show convLoop padding dilation input_width ((k, s) :: ks.zip ss) =
        specConvWidth padding dilation input_width (k :: ks) (s :: ss)
      unfold convLoop specConvWidth
      by_cases hs : s = 0
      · simp [hs]
      · rw [if_neg hs, if_neg hs]
        exact ih _ _ h'

/-- Witness for C1 at `input_width = 28`, kernels `(5,2,5,2)`, strides
`(1,2,1,2)`: both the source function and the spec formula give `4`. -/
theorem width_matches_spec_formula_witness :
    compute_conv_output_width 28 [5, 2, 5, 2] [1, 2, 1, 2] 0 1 =
      specConvWidth 0 1 28 [5, 2, 5, 2] [1, 2, 1, 2] ∧
    specConvWidth 0 1 28 [5, 2, 5, 2] [1, 2, 1, 2] = some 4 :=
  ⟨width_matches_spec_formula 28 0 1 [5, 2, 5, 2] [1, 2, 1, 2] (by decide), by decide⟩

/-- Counterexample to claim C2: at `input_width = 4` with kernels
`(5,2,5,2)` and strides `(1,2,1,2)`, the first intermediate width is already
`0` (shown via the one-layer prefix), yet the function raises nothing and
returns the normal value `-2` — it does not fail with an "invalid
architecture" error. -/
theorem width_nonpositive_no_error_counterexample :
    compute_conv_output_width 4 [5] [1] 0 1 = some 0 ∧
    compute_conv_output_width 4 [5, 2, 5, 2] [1, 2, 1, 2] 0 1 = some (-2) ∧
    compute_conv_output_width 4 [5, 2, 5, 2] [1, 2, 1, 2] 0 1 ≠ none := by
  refine ⟨by decide, by decide, by decide⟩

/-- Claim C2 as amended: `compute_conv_output_width` performs no positivity
check at all — whenever every stride is nonzero it returns a value normally,
even when intermediate widths are zero or negative; the non-positive
dimension is silently propagated to the caller. -/
theorem width_returns_value_despite_nonpositive
    (input_width padding dilation : Int) (kernel_sizes strides : List Int)
    (h : ∀ s ∈ strides, s ≠ 0) :
    (compute_conv_output_width input_width kernel_sizes strides padding dilation).isSome := by
  apply convLoop_isSome_of_nonzero
  intro p hp
  obtain ⟨k, s⟩ := p
  exact h s (List.of_mem_zip hp).2

/-- Witness for the amended C2 at `input_width = 4`: the result exists and is
the non-positive value `-2`. -/
theorem width_returns_value_despite_nonpositive_witness :
    (compute_conv_output_width 4 [5, 2, 5, 2] [1, 2, 1, 2] 0 1).isSome ∧
    compute_conv_output_width 4 [5, 2, 5, 2] [1, 2, 1, 2] 0 1 = some (-2) :=
  ⟨width_returns_value_despite_nonpositive 4 0 1 [5, 2, 5, 2] [1, 2, 1, 2] (by decide),
    by decide⟩

/-- Counterexample to claim C3: with mismatched lengths — one kernel size but
two strides — the function raises no configuration error: it returns the
normal result `24` (the extra stride is silently dropped by `zip`). -/
theorem mismatched_lengths_no_error_counterexample :
    compute_conv_output_width 28 [5] [1, 2] 0 1 = some 24 ∧
    compute_conv_output_width 28 [5] [1, 2] 0 1 ≠ none := by
  refine ⟨by decide, by decide⟩

/-- Claim C3 as amended: when the kernel-size and stride sequences have
different lengths, `compute_conv_output_width` does not raise; it returns a
normal result (computed from the zip-truncated pairing), provided no stride
is zero. -/
theorem mismatched_lengths_return_normally
    (input_width padding dilation : Int) (kernel_sizes strides : List Int)
    (hne : kernel_sizes.length ≠ strides.length) (h : ∀ s ∈ strides, s ≠ 0) :
    (compute_conv_output_width input_width kernel_sizes strides padding dilation).isSome := by
  apply convLoop_isSome_of_nonzero
  intro p hp
  obtain ⟨k, s⟩ := p
  exact h s (List.of_mem_zip hp).2

/-- Witness for the amended C3: one kernel size, two strides, normal result
`24`. -/
theorem mismatched_lengths_return_normally_witness :
    (compute_conv_output_width 28 [5] [1, 2] 0 1).isSome ∧
    compute_conv_output_width 28 [5] [1, 2] 0 1 = some 24 :=
  ⟨mismatched_lengths_return_normally 28 0 1 [5] [1, 2] (by decide) (by decide), by decide⟩

/-- Claim C4: `compute_conv_output_width(28, (5,2,5,2), (1,2,1,2))` with
padding 0 and dilation 1 passes through the intermediate widths 24, 12, 8
(shown on the layer prefixes) and returns 4, and
`compute_conv_output_size(28, (5,2,5,2), (1,2,1,2), 64)` returns
`64 * 4² = 1024`. -/
theorem conv_output_28_concrete :
    compute_conv_output_width 28 [5] [1] 0 1 = some 24 ∧
    compute_conv_output_width 28 [5, 2] [1, 2] 0 1 = some 12 ∧
    compute_conv_output_width 28 [5, 2, 5] [1, 2, 1] 0 1 = some 8 ∧
    compute_conv_output_width 28 [5, 2, 5, 2] [1, 2, 1, 2] 0 1 = some 4 ∧
    compute_conv_output_size 28 [5, 2, 5, 2] [1, 2, 1, 2] 64 0 1 = some 1024 := by
  refine ⟨by decide, by decide, by decide, by decide, by decide⟩

/-- Claim C5: with kernels `(5,2,5,2)`, strides `(1,2,1,2)`, padding 0 and
dilation 1, `compute_conv_output_width` is deterministic (two calls with
identical arguments are equal) and monotonically non-decreasing in the input
width: for positive `a ≤ b`, any values returned at `a` and at `b` satisfy
`x ≤ y`. -/
theorem width_monotone_deterministic (a b : Int) (ha : 0 < a) (hab : a ≤ b) :
    compute_conv_output_width a [5, 2, 5, 2] [1, 2, 1, 2] 0 1 =
      compute_conv_output_width a [5, 2, 5, 2] [1, 2, 1, 2] 0 1 ∧
    ∀ x y, compute_conv_output_width a [5, 2, 5, 2] [1, 2, 1, 2] 0 1 = some x →
      compute_conv_output_width b [5, 2, 5, 2] [1, 2, 1, 2] 0 1 = some y → x ≤ y := by
  refine ⟨rfl, ?_⟩
  intro x y hx hy
  exact convLoop_mono 0 1 [(5, 1), (2, 2), (5, 1), (2, 2)] (by decide) a b hab x y hx hy

/-- Witness for C5 at `a = 1`, `b = 28`: the returned widths are `-3` and `4`
and indeed `-3 ≤ 4`. -/
theorem width_monotone_deterministic_witness :
    compute_conv_output_width 1 [5, 2, 5, 2] [1, 2, 1, 2] 0 1 = some (-3) ∧
    compute_conv_output_width 28 [5, 2, 5, 2] [1, 2, 1, 2] 0 1 = some 4 ∧
    (-3 : Int) ≤ 4 :=
  ⟨by decide, by decide,
    (width_monotone_deterministic 1 28 (by decide) (by decide)).2 (-3) 4
      (by decide) (by decide)⟩

/-- Claim C6: for all arguments, `compute_conv_output_size` is
`n_output_channels * width²` where `width` is `compute_conv_output_width` on
the same width/kernel/stride/padding/dilation arguments (an exception in the
width computation propagates). -/
theorem size_eq_channels_mul_width_sq
    (input_width n_output_channels padding dilation : Int)
    (kernel_sizes strides : List Int) :
    compute_conv_output_size input_width kernel_sizes strides n_output_channels
        padding dilation =
      (compute_conv_output_width input_width kernel_sizes strides padding dilation).map
        (fun width => n_output_channels * width ^ 2) := by
  unfold compute_conv_output_size
  cases compute_conv_output_width input_width kernel_sizes strides padding dilation <;> rfl

/-- Claim C7: `ConvNet` constructed from a rank-2 shape `[h, w]` and from a
rank-3 shape `[c, h, w]` with the same spatial dimensions computes the same
flattened feature count `fc1_size` entering the fully-connected block. -/
theorem fc1_size_rank2_eq_rank3 (c h w : Int) :
    convNetFc1Size [h, w] = convNetFc1Size [c, h, w] := rfl

/-- Claim C8: constructing `ConvNet` with an `input_shape` whose length is
neither 2 nor 3 fails at construction time (the rank-3 tuple unpacking
raises), yielding no network. -/
theorem convNet_invalid_rank_fails (input_shape : List Int)
    (h2 : input_shape.length ≠ 2) (h3 : input_shape.length ≠ 3) :
    convNetFc1Size input_shape = none := by
  rcases input_shape with _ | ⟨a, _ | ⟨b, _ | ⟨c, _ | ⟨d, t⟩⟩⟩⟩
  · rfl
  · rfl
  · exact absurd rfl h2
  · exact absurd rfl h3
  · show convNetFc1Size (a :: b :: c :: d :: t) = none
    unfold convNetFc1Size
    rw [if_neg h2]

/-- Witness for C8 at the length-1 shape `[5]` and the length-4 shape
`[1, 3, 28, 28]`: both constructions fail. -/
theorem convNet_invalid_rank_fails_witness :
    convNetFc1Size [5] = none ∧ convNetFc1Size [1, 3, 28, 28] = none :=
  ⟨convNet_invalid_rank_fails [5] (by decide) (by decide),
    convNet_invalid_rank_fails [1, 3, 28, 28] (by decide) (by decide)⟩

/-- Claim C9: with empty kernel and stride sequences the loop never runs:
`compute_conv_output_width` returns `input_width` unchanged and
`compute_conv_output_size` returns `n_output_channels * input_width²`. -/
theorem empty_layers_identity (input_width n_output_channels padding dilation : Int) :
    compute_conv_output_width input_width [] [] padding dilation = some input_width ∧
    compute_conv_output_size input_width [] [] n_output_channels padding dilation =
      some (n_output_channels * input_width ^ 2) :=
  ⟨rfl, rfl⟩

/-- Claim C10: `compute_conv_output_width` depends only on
`zip kernel_sizes strides`: it equals its value on both sequences truncated
to the length of the shorter one, so trailing extra entries of the longer
sequence have no effect (this covers every pair of unequal lengths). -/
theorem extra_trailing_entries_ignored (input_width padding dilation : Int)
    (kernel_sizes strides : List Int) :
    compute_conv_output_width input_width kernel_sizes strides padding dilation =
      compute_conv_output_width input_width
        (kernel_sizes.take (min kernel_sizes.length strides.length))
        (strides.take (min kernel_sizes.length strides.length)) padding dilation := by
  unfold compute_conv_output_width
  rw [← zip_take_min]

end Models
